import Mathlib

/-!
Verification of the SourcedSport GPS dashboard analytics core
(sourcedsport_dashboard.py): metric classification, ACWR computation,
schema normalization, weekly aggregation and the sample-data generator.
Python numbers are modelled as rationals, fallible paths as Except or
Option, and the tabular data as explicit lists.
-/

set_option linter.unusedVariables false

namespace SourcedSport

/-- Traffic-light zone returned by the classifier and the ACWR status. -/
inductive Zone
  | green
  | yellow
  | orange
  | red
  | gray
deriving DecidableEq, Repr

/-- One entry of FIELD_HOCKEY_BENCHMARKS: the per-metric benchmark table.
Each Python dict entry has all of these keys, so the record is total. -/
structure Benchmark where
  unit : String
  match_avg : ℚ
  training_target_pct : ℚ
  green : ℚ × ℚ
  yellow : ℚ × ℚ
  orange : ℚ × ℚ
  red_high : ℚ
  red_low : ℚ
deriving DecidableEq, Repr

def benchmark_total_distance : Benchmark :=
  { unit := "m", match_avg := 9500, training_target_pct := 0.70,
    green := (6000, 8000), yellow := (8000, 9500), orange := (9500, 11000),
    red_high := 11000, red_low := 5000 }

def benchmark_hsr_distance : Benchmark :=
  { unit := "m", match_avg := 1800, training_target_pct := 0.65,
    green := (1000, 1500), yellow := (1500, 1800), orange := (1800, 2200),
    red_high := 2200, red_low := 800 }

def benchmark_sprint_distance : Benchmark :=
  { unit := "m", match_avg := 450, training_target_pct := 0.60,
    green := (200, 350), yellow := (350, 450), orange := (450, 600),
    red_high := 600, red_low := 150 }

def benchmark_accel_count : Benchmark :=
  { unit := "n", match_avg := 85, training_target_pct := 0.70,
    green := (50, 70), yellow := (70, 85), orange := (85, 100),
    red_high := 100, red_low := 40 }

def benchmark_decel_count : Benchmark :=
  { unit := "n", match_avg := 80, training_target_pct := 0.70,
    green := (45, 65), yellow := (65, 80), orange := (80, 95),
    red_high := 95, red_low := 35 }

def benchmark_player_load : Benchmark :=
  { unit := "AU", match_avg := 950, training_target_pct := 0.70,
    green := (500, 750), yellow := (750, 900), orange := (900, 1100),
    red_high := 1100, red_low := 400 }

/-- The FIELD_HOCKEY_BENCHMARKS dict: metric key to benchmark entry.
A missing key is none; in the source, dict.get returns the falsy empty
dict then, and every present entry is a non-empty dict. -/
def FIELD_HOCKEY_BENCHMARKS (metric : String) : Option Benchmark :=
  if metric = "total_distance" then some benchmark_total_distance
  else if metric = "hsr_distance" then some benchmark_hsr_distance
  else if metric = "sprint_distance" then some benchmark_sprint_distance
  else if metric = "accel_count" then some benchmark_accel_count
  else if metric = "decel_count" then some benchmark_decel_count
  else if metric = "player_load" then some benchmark_player_load
  else none

/-- ACWR_ZONES green band (optimal zone). -/
def ACWR_ZONES_green : ℚ × ℚ := (0.8, 1.3)

/-- ACWR_ZONES yellow_low band (undertraining risk). -/
def ACWR_ZONES_yellow_low : ℚ × ℚ := (0.6, 0.8)

/-- ACWR_ZONES yellow_high band (moderate overload). -/
def ACWR_ZONES_yellow_high : ℚ × ℚ := (1.3, 1.5)

/-- ACWR_ZONES red_low bound (significant undertraining). -/
def ACWR_ZONES_red_low : ℚ := 0.6

/-- ACWR_ZONES red_high bound (high injury risk). -/
def ACWR_ZONES_red_high : ℚ := 1.5

/-- get_traffic_light from the source: red exclusion range first, then the
orange, yellow and green inclusion bands, with yellow as the final
fallback; gray when the metric has no benchmark entry. -/
def get_traffic_light (value : ℚ) (metric : String) : Zone :=
  match FIELD_HOCKEY_BENCHMARKS metric with
  | none => Zone.gray
  | some b =>
    if value < b.red_low ∨ value > b.red_high then Zone.red
    else if b.orange.1 ≤ value ∧ value ≤ b.orange.2 then Zone.orange
    else if b.yellow.1 ≤ value ∧ value ≤ b.yellow.2 then Zone.yellow
    else if b.green.1 ≤ value ∧ value ≤ b.green.2 then Zone.green
    else Zone.yellow

/-- get_acwr_status from the source. A Python None (and NaN, which a
rational cannot represent) is the none case. -/
def get_acwr_status (acwr : Option ℚ) : Zone × String :=
  match acwr with
  | none => (Zone.gray, "No data")
  | some a =>
    if ACWR_ZONES_green.1 ≤ a ∧ a ≤ ACWR_ZONES_green.2 then (Zone.green, "Optimal")
    else if ACWR_ZONES_yellow_low.1 ≤ a ∧ a < ACWR_ZONES_green.1 then (Zone.yellow, "Undertraining")
    else if ACWR_ZONES_green.2 < a ∧ a ≤ ACWR_ZONES_yellow_high.2 then (Zone.yellow, "High Load")
    else if a < ACWR_ZONES_red_low then (Zone.red, "Detraining Risk")
    else (Zone.red, "Injury Risk")

/-- The chronic EWMA smoothing factor 2 / (chronic_weeks * 7 + 1), inlined
in the source as chronic_lambda. -/
def chronicLambda (chronic_weeks : ℕ) : ℚ := 2 / ((chronic_weeks : ℚ) * 7 + 1)

/-- The EWMA loop of calculate_acwr: chronic_ewma seeded with the first
load, then one step load * lam + chronic * (1 - lam) per remaining load. -/
def ewmaFold (lam : ℚ) (h : ℚ) (t : List ℚ) : ℚ :=
  t.foldl (fun c load => load * lam + c * (1 - lam)) h

/-- The chronic EWMA as the specification words it: seed with the first
element of the sequence, fold left over the remaining elements; none on an
empty sequence. Stated separately from calculate_acwr so the code can be
compared against it. -/
def chronicEwmaSpec (lam : ℚ) : List ℚ → Option ℚ
  | [] => none
  | h :: t => some (ewmaFold lam h t)

/-- calculate_acwr from the source. The Python function returns None (the
insufficient-data sentinel, Except.ok none here) when the history is
shorter than chronic_weeks or the chronic EWMA is exactly 0, and otherwise
the ratio of the raw last element to the chronic EWMA. Reading
weekly_loads[-1] or weekly_loads[0] from an empty list raises IndexError,
modelled as Except.error. acute_weeks only feeds the unused acute_lambda
in the source and is kept for the signature; the Python defaults are
acute_weeks = 1 and chronic_weeks = 4. -/
def calculate_acwr (weekly_loads : List ℚ) (acute_weeks chronic_weeks : ℕ) :
    Except Unit (Option ℚ) :=
  if weekly_loads.length < chronic_weeks then Except.ok none
  else
    match weekly_loads with
    | [] => Except.error ()
    | h :: t =>
      let chronic_ewma := ewmaFold (chronicLambda chronic_weeks) h t
      if chronic_ewma = 0 then Except.ok none
      else Except.ok (some ((h :: t).getLast (List.cons_ne_nil h t) / chronic_ewma))

lemma calculate_acwr_short (weekly_loads : List ℚ) (aw cw : ℕ)
    (hlen : weekly_loads.length < cw) :
    calculate_acwr weekly_loads aw cw = Except.ok none := by
  unfold calculate_acwr
  rw [if_pos hlen]

lemma calculate_acwr_nil (aw cw : ℕ) :
    calculate_acwr [] aw cw =
      if 0 < cw then Except.ok none else Except.error () := by
  unfold calculate_acwr
  rfl

lemma calculate_acwr_cons (h : ℚ) (t : List ℚ) (aw cw : ℕ)
    (hlen : ¬ (h :: t).length < cw) :
    calculate_acwr (h :: t) aw cw =
      (if ewmaFold (chronicLambda cw) h t = 0 then Except.ok none
       else Except.ok (some ((h :: t).getLast (List.cons_ne_nil h t) /
         ewmaFold (chronicLambda cw) h t))) := by
  unfold calculate_acwr
  rw [if_neg hlen]

/-- Claim C1: for every weekly-load sequence at least chronic_weeks long
whose chronic EWMA (seeded with the first element, folded left over the
rest with factor 2 / (chronic_weeks * 7 + 1)) is nonzero, calculate_acwr
returns the raw last element divided by that EWMA; and on
[500, 520, 510, 505] with the default chronic_weeks = 4 the ratio is
approximately 1.0057 (within 1/10000). -/
theorem c1_acwr_formula :
    (∀ (h : ℚ) (t : List ℚ) (cw : ℕ) (e : ℚ),
      cw ≤ (h :: t).length →
      chronicEwmaSpec (chronicLambda cw) (h :: t) = some e →
      e ≠ 0 →
      calculate_acwr (h :: t) 1 cw =
        Except.ok (some ((h :: t).getLast (List.cons_ne_nil h t) / e))) ∧
    (∃ r : ℚ, calculate_acwr [500, 520, 510, 505] 1 4 = Except.ok (some r) ∧
      |r - 1.0057| < 1 / 10000) := by
  constructor
  · intro h t cw e hlen hspec hne
    have he : ewmaFold (chronicLambda cw) h t = e := by
      simpa [chronicEwmaSpec] using hspec
    rw [calculate_acwr_cons h t 1 cw (Nat.not_lt.mpr hlen), he, if_neg hne]
  · refine ⟨12316445 / 12247730, ?_, ?_⟩
    · have hlen : ¬ ([500, 520, 510, 505] : List ℚ).length < 4 := by norm_num
      rw [calculate_acwr_cons 500 [520, 510, 505] 1 4 hlen]
      norm_num [ewmaFold, chronicLambda, List.getLast]
    · rw [abs_lt]
      constructor <;> norm_num

lemma get_acwr_status_some (a : ℚ) :
    get_acwr_status (some a) =
      (if 4 / 5 ≤ a ∧ a ≤ 13 / 10 then (Zone.green, "Optimal")
       else if 3 / 5 ≤ a ∧ a < 4 / 5 then (Zone.yellow, "Undertraining")
       else if 13 / 10 < a ∧ a ≤ 3 / 2 then (Zone.yellow, "High Load")
       else if a < 3 / 5 then (Zone.red, "Detraining Risk")
       else (Zone.red, "Injury Risk")) := by
  have e1 : ACWR_ZONES_green.1 = 4 / 5 := by show (0.8 : ℚ) = 4 / 5; norm_num
  have e2 : ACWR_ZONES_green.2 = 13 / 10 := by show (1.3 : ℚ) = 13 / 10; norm_num
  have e3 : ACWR_ZONES_yellow_low.1 = 3 / 5 := by show (0.6 : ℚ) = 3 / 5; norm_num
  have e4 : ACWR_ZONES_yellow_high.2 = 3 / 2 := by show (1.5 : ℚ) = 3 / 2; norm_num
  have e5 : ACWR_ZONES_red_low = 3 / 5 := by show (0.6 : ℚ) = 3 / 5; norm_num
  simp only [get_acwr_status, e1, e2, e3, e4, e5]

/-- Claim C3: get_acwr_status maps a missing ratio to gray "No data" and a
present ratio through the stated bands, narrowest first, with ratio above
1.5 landing in the final red "Injury Risk" branch; 1.40 is yellow
"High Load", 0.55 red "Detraining Risk", 1.55 red "Injury Risk". -/
theorem c3_acwr_status :
    get_acwr_status none = (Zone.gray, "No data") ∧
    (∀ a : ℚ,
      (0.8 ≤ a → a ≤ 1.3 → get_acwr_status (some a) = (Zone.green, "Optimal")) ∧
      (0.6 ≤ a → a < 0.8 → get_acwr_status (some a) = (Zone.yellow, "Undertraining")) ∧
      (1.3 < a → a ≤ 1.5 → get_acwr_status (some a) = (Zone.yellow, "High Load")) ∧
      (a < 0.6 → get_acwr_status (some a) = (Zone.red, "Detraining Risk")) ∧
      (1.5 < a → get_acwr_status (some a) = (Zone.red, "Injury Risk"))) ∧
    get_acwr_status (some 1.40) = (Zone.yellow, "High Load") ∧
    get_acwr_status (some 0.55) = (Zone.red, "Detraining Risk") ∧
    get_acwr_status (some 1.55) = (Zone.red, "Injury Risk") := by
  refine ⟨rfl, ?_, ?_, ?_, ?_⟩
  · intro a
    refine ⟨?_, ?_, ?_, ?_, ?_⟩
    · intro h1 h2
      norm_num at h1 h2
      rw [get_acwr_status_some]
      split_ifs with g1 g2 g3 g4
      · rfl
      · exfalso; linarith [g2.2]
      · exfalso; linarith [g3.1]
      · exfalso; linarith
      · exact absurd ⟨h1, h2⟩ g1
    · intro h1 h2
      norm_num at h1 h2
      rw [get_acwr_status_some]
      split_ifs with g1 g2 g3 g4
      · exfalso; linarith [g1.1]
      · rfl
      · exfalso; linarith [g3.1]
      · exfalso; linarith
      · exact absurd ⟨h1, h2⟩ g2
    · intro h1 h2
      norm_num at h1 h2
      rw [get_acwr_status_some]
      split_ifs with g1 g2 g3 g4
      · exfalso; linarith [g1.2]
      · exfalso; linarith [g2.2]
      · rfl
      · exfalso; linarith
      · exact absurd ⟨h1, h2⟩ g3
    · intro h1
      norm_num at h1
      rw [get_acwr_status_some]
      split_ifs with g1 g2 g3
      · exfalso; linarith [g1.1]
      · exfalso; linarith [g2.1]
      · exfalso; linarith [g3.1]
      · rfl
    · intro h1
      norm_num at h1
      rw [get_acwr_status_some]
      split_ifs with g1 g2 g3 g4
      · exfalso; linarith [g1.2]
      · exfalso; linarith [g2.2]
      · exfalso; linarith [g3.2]
      · exfalso; linarith
      · rfl
  · rw [get_acwr_status_some]; norm_num
  · rw [get_acwr_status_some]; norm_num
  · rw [get_acwr_status_some]; norm_num

/-- Claim C4: calculate_acwr returns the insufficient-data sentinel
(Python None, Except.ok none here, distinct both from a zero ratio and
from the IndexError path) exactly when the history is shorter than
chronic_weeks or the chronic EWMA folds to exactly 0; in particular
[500, 520, 510] with chronic_weeks = 4 yields the sentinel. -/
theorem c4_acwr_sentinel :
    (∀ (weekly_loads : List ℚ) (cw : ℕ),
      calculate_acwr weekly_loads 1 cw = Except.ok none ↔
        (weekly_loads.length < cw ∨
          chronicEwmaSpec (chronicLambda cw) weekly_loads = some 0)) ∧
    calculate_acwr [500, 520, 510] 1 4 = Except.ok none := by
  constructor
  · intro weekly_loads cw
    match weekly_loads with
    | [] =>
      rw [calculate_acwr_nil]
      by_cases hcw : 0 < cw
      · rw [if_pos hcw]
        exact iff_of_true rfl (Or.inl hcw)
      · rw [if_neg hcw]
        refine iff_of_false (by simp) ?_
        rintro (h' | h')
        · exact hcw h'
        · exact Option.noConfusion h'
    | h :: t =>
      by_cases hlen : (h :: t).length < cw
      · rw [calculate_acwr_short _ _ _ hlen]
        exact iff_of_true rfl (Or.inl hlen)
      · rw [calculate_acwr_cons h t 1 cw hlen]
        by_cases he : ewmaFold (chronicLambda cw) h t = 0
        · rw [if_pos he]
          exact iff_of_true rfl (Or.inr (by simp [chronicEwmaSpec, he]))
        · rw [if_neg he]
          refine iff_of_false (by simp) ?_
          rintro (h' | h')
          · exact hlen h'
          · exact he (by simpa [chronicEwmaSpec] using h')
  · apply calculate_acwr_short
    norm_num

/-- Claim C9: for chronic_weeks at least 1, calculate_acwr is total: the
length guard returns the sentinel before the list is ever indexed, so no
IndexError path is reachable; with chronic_weeks = 0 and an empty list the
protection fails and the IndexError path is taken. -/
theorem c9_acwr_total :
    (∀ (cw : ℕ) (weekly_loads : List ℚ), 1 ≤ cw →
      ∃ r : Option ℚ, calculate_acwr weekly_loads 1 cw = Except.ok r) ∧
    calculate_acwr [] 1 0 = Except.error () := by
  constructor
  · intro cw weekly_loads hcw
    match weekly_loads with
    | [] =>
      exact ⟨none, by rw [calculate_acwr_nil, if_pos (show 0 < cw by omega)]⟩
    | h :: t =>
      by_cases hlen : (h :: t).length < cw
      · exact ⟨none, calculate_acwr_short _ _ _ hlen⟩
      · rw [calculate_acwr_cons h t 1 cw hlen]
        by_cases he : ewmaFold (chronicLambda cw) h t = 0
        · exact ⟨none, by rw [if_pos he]⟩
        · exact ⟨_, by rw [if_neg he]⟩
  · rfl

/-- Minimum of a non-empty list given as head and tail, as a left fold. -/
def listMin (h : ℚ) (t : List ℚ) : ℚ := t.foldl min h

/-- Maximum of a non-empty list given as head and tail, as a left fold. -/
def listMax (h : ℚ) (t : List ℚ) : ℚ := t.foldl max h

lemma foldl_min_le (t : List ℚ) : ∀ a : ℚ, t.foldl min a ≤ a := by
  induction t with
  | nil => intro a; exact le_refl a
  | cons x t ih =>
    intro a
    exact le_trans (ih (min a x)) (min_le_left a x)

lemma foldl_min_le_mem (t : List ℚ) : ∀ (a x : ℚ), x ∈ t → t.foldl min a ≤ x := by
  induction t with
  | nil => intro a x hx; cases hx
  | cons y t ih =>
    intro a x hx
    rcases List.mem_cons.mp hx with h | h
    · subst h
      exact le_trans (foldl_min_le t (min a x)) (min_le_right a x)
    · exact ih (min a y) x h

lemma le_foldl_max (t : List ℚ) : ∀ a : ℚ, a ≤ t.foldl max a := by
  induction t with
  | nil => intro a; exact le_refl a
  | cons x t ih =>
    intro a
    exact le_trans (le_max_left a x) (ih (max a x))

lemma mem_le_foldl_max (t : List ℚ) : ∀ (a x : ℚ), x ∈ t → x ≤ t.foldl max a := by
  induction t with
  | nil => intro a x hx; cases hx
  | cons y t ih =>
    intro a x hx
    rcases List.mem_cons.mp hx with h | h
    · subst h
      exact le_trans (le_max_right a x) (le_foldl_max t (max a x))
    · exact ih (max a y) x h

lemma foldl_min_pos (t : List ℚ) : ∀ a : ℚ, 0 < a → (∀ x ∈ t, 0 < x) →
    0 < t.foldl min a := by
  induction t with
  | nil => intro a ha _; exact ha
  | cons y t ih =>
    intro a ha hall
    exact ih (min a y) (lt_min ha (hall y (List.mem_cons_self y t)))
      (fun x hx => hall x (List.mem_cons_of_mem y hx))

lemma ewmaFold_bounds (lam : ℚ) (hl : 0 < lam) (hl1 : lam < 1)
    (t : List ℚ) : ∀ (c lo hi : ℚ), lo ≤ c → c ≤ hi →
    (∀ x ∈ t, lo ≤ x ∧ x ≤ hi) →
    lo ≤ ewmaFold lam c t ∧ ewmaFold lam c t ≤ hi := by
  induction t with
  | nil => intro c lo hi h1 h2 _; exact ⟨h1, h2⟩
  | cons x t ih =>
    intro c lo hi h1 h2 hall
    have hx := hall x (List.mem_cons_self x t)
    have hlo : lo ≤ x * lam + c * (1 - lam) := by
      nlinarith [mul_le_mul_of_nonneg_right hx.1 hl.le,
        mul_le_mul_of_nonneg_right h1 (by linarith : (0 : ℚ) ≤ 1 - lam)]
    have hhi : x * lam + c * (1 - lam) ≤ hi := by
      nlinarith [mul_le_mul_of_nonneg_right hx.2 hl.le,
        mul_le_mul_of_nonneg_right h2 (by linarith : (0 : ℚ) ≤ 1 - lam)]
    have := ih (x * lam + c * (1 - lam)) lo hi hlo hhi
      (fun y hy => hall y (List.mem_cons_of_mem x hy))
    simpa [ewmaFold] using this

lemma chronicLambda_pos (cw : ℕ) : 0 < chronicLambda cw := by
  unfold chronicLambda
  positivity

lemma chronicLambda_lt_one (cw : ℕ) (hcw : 1 ≤ cw) : chronicLambda cw < 1 := by
  unfold chronicLambda
  have h1 : (1 : ℚ) ≤ (cw : ℚ) := by exact_mod_cast hcw
  rw [div_lt_one (by linarith)]
  linarith

/-- Claim C10: for chronic_weeks at least 1 the smoothing factor lies
strictly between 0 and 1, the chronic EWMA of a non-empty load list lies
between the minimum and maximum of the list, and when every load is
strictly positive and the list is long enough, calculate_acwr returns a
strictly positive ratio rather than the sentinel. -/
theorem c10_ewma_convexity :
    ∀ (cw : ℕ) (h : ℚ) (t : List ℚ), 1 ≤ cw →
      (0 < chronicLambda cw ∧ chronicLambda cw < 1) ∧
      (∃ e : ℚ, chronicEwmaSpec (chronicLambda cw) (h :: t) = some e ∧
        listMin h t ≤ e ∧ e ≤ listMax h t) ∧
      ((∀ x ∈ h :: t, 0 < x) → cw ≤ (h :: t).length →
        ∃ r : ℚ, calculate_acwr (h :: t) 1 cw = Except.ok (some r) ∧ 0 < r) := by
  intro cw h t hcw
  have hl := chronicLambda_pos cw
  have hl1 := chronicLambda_lt_one cw hcw
  have hbounds : listMin h t ≤ ewmaFold (chronicLambda cw) h t ∧
      ewmaFold (chronicLambda cw) h t ≤ listMax h t := by
    apply ewmaFold_bounds (chronicLambda cw) hl hl1 t h (listMin h t) (listMax h t)
      (foldl_min_le t h) (le_foldl_max t h)
    intro x hx
    exact ⟨foldl_min_le_mem t h x hx, mem_le_foldl_max t h x hx⟩
  refine ⟨⟨hl, hl1⟩, ⟨ewmaFold (chronicLambda cw) h t, rfl, hbounds⟩, ?_⟩
  intro hpos hlen
  have hminpos : 0 < listMin h t :=
    foldl_min_pos t h (hpos h (List.mem_cons_self h t))
      (fun x hx => hpos x (List.mem_cons_of_mem h hx))
  have hepos : 0 < ewmaFold (chronicLambda cw) h t := lt_of_lt_of_le hminpos hbounds.1
  have hlast : 0 < (h :: t).getLast (List.cons_ne_nil h t) :=
    hpos _ (List.getLast_mem (List.cons_ne_nil h t))
  refine ⟨(h :: t).getLast (List.cons_ne_nil h t) / ewmaFold (chronicLambda cw) h t, ?_, ?_⟩
  · rw [calculate_acwr_cons h t 1 cw (Nat.not_lt.mpr hlen), if_neg (ne_of_gt hepos)]
  · exact div_pos hlast hepos

lemma get_traffic_light_none (v : ℚ) (m : String)
    (hm : FIELD_HOCKEY_BENCHMARKS m = none) :
    get_traffic_light v m = Zone.gray := by
  unfold get_traffic_light
  rw [hm]

lemma get_traffic_light_some (v : ℚ) (m : String) (b : Benchmark)
    (hm : FIELD_HOCKEY_BENCHMARKS m = some b) :
    get_traffic_light v m =
      (if v < b.red_low ∨ v > b.red_high then Zone.red
       else if b.orange.1 ≤ v ∧ v ≤ b.orange.2 then Zone.orange
       else if b.yellow.1 ≤ v ∧ v ≤ b.yellow.2 then Zone.yellow
       else if b.green.1 ≤ v ∧ v ≤ b.green.2 then Zone.green
       else Zone.yellow) := by
  unfold get_traffic_light
  rw [hm]

/-- Claim C2: get_traffic_light always lands in one of the five zones, is
gray exactly when the metric has no benchmark entry, and otherwise
follows the fixed precedence: the red exclusion range first (so a value
outside it is red even inside an inclusion band), then the orange, yellow
and green inclusion bands, then yellow as the gap fallback. -/
theorem c2_traffic_light :
    (∀ (v : ℚ) (m : String),
      get_traffic_light v m ∈
        [Zone.green, Zone.yellow, Zone.orange, Zone.red, Zone.gray]) ∧
    (∀ (v : ℚ) (m : String),
      (get_traffic_light v m = Zone.gray ↔ FIELD_HOCKEY_BENCHMARKS m = none)) ∧
    (∀ (v : ℚ) (m : String) (b : Benchmark), FIELD_HOCKEY_BENCHMARKS m = some b →
      ((v < b.red_low ∨ b.red_high < v) → get_traffic_light v m = Zone.red) ∧
      (¬(v < b.red_low ∨ b.red_high < v) →
        (b.orange.1 ≤ v ∧ v ≤ b.orange.2) → get_traffic_light v m = Zone.orange) ∧
      (¬(v < b.red_low ∨ b.red_high < v) →
        ¬(b.orange.1 ≤ v ∧ v ≤ b.orange.2) →
        (b.yellow.1 ≤ v ∧ v ≤ b.yellow.2) → get_traffic_light v m = Zone.yellow) ∧
      (¬(v < b.red_low ∨ b.red_high < v) →
        ¬(b.orange.1 ≤ v ∧ v ≤ b.orange.2) →
        ¬(b.yellow.1 ≤ v ∧ v ≤ b.yellow.2) →
        (b.green.1 ≤ v ∧ v ≤ b.green.2) → get_traffic_light v m = Zone.green) ∧
      (¬(v < b.red_low ∨ b.red_high < v) →
        ¬(b.orange.1 ≤ v ∧ v ≤ b.orange.2) →
        ¬(b.yellow.1 ≤ v ∧ v ≤ b.yellow.2) →
        ¬(b.green.1 ≤ v ∧ v ≤ b.green.2) → get_traffic_light v m = Zone.yellow)) := by
  refine ⟨?_, ?_, ?_⟩
  · intro v m
    rcases hm : FIELD_HOCKEY_BENCHMARKS m with _ | b
    · rw [get_traffic_light_none v m hm]; simp
    · rw [get_traffic_light_some v m b hm]
      split_ifs <;> simp
  · intro v m
    rcases hm : FIELD_HOCKEY_BENCHMARKS m with _ | b
    · rw [get_traffic_light_none v m hm]
      simp
    · rw [get_traffic_light_some v m b hm]
      split_ifs <;> simp
  · intro v m b hm
    refine ⟨?_, ?_, ?_, ?_, ?_⟩
    · intro h1
      rw [get_traffic_light_some v m b hm, if_pos h1]
    · intro h1 h2
      rw [get_traffic_light_some v m b hm, if_neg h1, if_pos h2]
    · intro h1 h2 h3
      rw [get_traffic_light_some v m b hm, if_neg h1, if_neg h2, if_pos h3]
    · intro h1 h2 h3 h4
      rw [get_traffic_light_some v m b hm, if_neg h1, if_neg h2, if_neg h3, if_pos h4]
    · intro h1 h2 h3 h4
      rw [get_traffic_light_some v m b hm, if_neg h1, if_neg h2, if_neg h3, if_neg h4]

/-- Witness for claim C10 at the concrete input [500, 520, 510, 505] with
chronic_weeks = 4: a strictly positive ratio is returned. -/
theorem c10_ewma_convexity_witness :
    ∃ r : ℚ, calculate_acwr [500, 520, 510, 505] 1 4 = Except.ok (some r) ∧ 0 < r :=
  (c10_ewma_convexity 4 500 [520, 510, 505] (by norm_num)).2.2
    (by intro x hx
        simp only [List.mem_cons, List.not_mem_nil, or_false] at hx
        rcases hx with rfl | rfl | rfl | rfl <;> norm_num)
    (by norm_num)

/-- The column_mappings dict of parse_uploaded_data: vendor column name to
canonical field name, STATSports entries first, then Catapult. -/
def column_mappings : List (String × String) :=
  [("Player Name", "Player"),
   ("Total Distance", "Total Distance (m)"),
   ("High Speed Running", "HSR Distance (m)"),
   ("Sprint Distance", "Sprint Distance (m)"),
   ("Accels", "Accelerations"),
   ("Decels", "Decelerations"),
   ("Dynamic Stress Load", "Player Load (AU)"),
   ("Athlete Name", "Player"),
   ("Total Player Load", "Player Load (AU)"),
   ("Velocity Band 5 Total Distance", "HSR Distance (m)"),
   ("Velocity Band 6 Total Distance", "Sprint Distance (m)"),
   ("Acceleration Band 3 Total Effort Count", "Accelerations"),
   ("Deceleration Band 3 Total Effort Count", "Decelerations")]

/-- First value bound to a key in an association list, none when absent. -/
def lookupStr (h : String) : List (String × String) → Option String
  | [] => none
  | (k, v) :: rest => if h = k then some v else lookupStr h rest

/-- The header renaming df.rename performs: a header that is a mapping key
becomes its canonical name, any other header passes through unchanged. -/
def renameColumn (h : String) : String :=
  match lookupStr h column_mappings with
  | some v => v
  | none => h

/-- An in-memory table: the header row and the data rows, each row a list
of raw cell strings in header order. -/
structure Table where
  headers : List String
  rows : List (List String)
deriving DecidableEq, Repr

/-- parse_uploaded_data after the pd.read_csv step (file reading is I/O
and is modelled as the already-read input table): rename the recognized
headers, keep every row exactly as read. The source restricts the rename
dict to columns present in the table, which changes nothing about which
headers end up renamed. -/
def parse_uploaded_data (t : Table) : Table :=
  { headers := t.headers.map renameColumn, rows := t.rows }

lemma lookupStr_mem_of_eq_some {h v : String} :
    ∀ {l : List (String × String)}, lookupStr h l = some v → (h, v) ∈ l := by
  intro l
  induction l with
  | nil => intro hl; cases hl
  | cons p rest ih =>
    intro hl
    rcases p with ⟨k, w⟩
    by_cases hk : h = k
    · rw [lookupStr, if_pos hk] at hl
      subst hk
      rw [Option.some_inj] at hl
      subst hl
      exact List.mem_cons_self _ _
    · rw [lookupStr, if_neg hk] at hl
      exact List.mem_cons_of_mem _ (ih hl)

lemma no_target_is_key :
    ∀ p ∈ column_mappings, lookupStr p.2 column_mappings = none := by
  decide

lemma renameColumn_idem (h : String) : renameColumn (renameColumn h) = renameColumn h := by
  unfold renameColumn
  rcases hl : lookupStr h column_mappings with _ | v
  · rw [hl]
  · rw [no_target_is_key (h, v) (lookupStr_mem_of_eq_some hl)]

/-- Claim C5: the column renaming of parse_uploaded_data is idempotent
(no canonical target name is itself a mapping key), unrecognized headers
pass through unchanged, and rows as well as header order are preserved
(renaming maps the header list in place). -/
theorem c5_normalizer_idempotent :
    (∀ t : Table, parse_uploaded_data (parse_uploaded_data t) = parse_uploaded_data t) ∧
    (∀ p ∈ column_mappings, lookupStr p.2 column_mappings = none) ∧
    (∀ h : String, lookupStr h column_mappings = none → renameColumn h = h) ∧
    (∀ t : Table, (parse_uploaded_data t).rows = t.rows ∧
      (parse_uploaded_data t).headers = t.headers.map renameColumn) := by
  refine ⟨?_, no_target_is_key, ?_, ?_⟩
  · intro t
    unfold parse_uploaded_data
    simp only [List.map_map]
    congr 1
    exact List.map_congr_left (fun h _ => renameColumn_idem h)
  · intro h hl
    unfold renameColumn
    rw [hl]
  · intro t
    exact ⟨rfl, rfl⟩

/-- A table whose Player Load (AU) cell holds a value that is not a
number, used to observe that no validation rejects it. -/
def c6_bad_table : Table :=
  { headers := ["Date", "Player", "Position", "Session Type", "Player Load (AU)"],
    rows := [["2026-01-05", "Alice", "MID", "Training", "not-a-number"]] }

/-- Claim C6 counterexample: a row carrying a non-numeric value in the
required numeric Player Load (AU) column is not rejected by the parsing
step: parse_uploaded_data returns the row set unchanged, bad cell
included, so the row reaches aggregation instead of failing fast with a
data-validation error. -/
theorem c6_counterexample :
    (parse_uploaded_data c6_bad_table).rows = c6_bad_table.rows ∧
    ["2026-01-05", "Alice", "MID", "Training", "not-a-number"] ∈
      (parse_uploaded_data c6_bad_table).rows := by
  exact ⟨rfl, List.mem_cons_self _ _⟩

/-- Claim C6 amended: the code performs no row-level validation at all:
parse_uploaded_data only renames headers and passes every row through
verbatim, so a non-numeric value in a required numeric field is neither
rejected nor coerced, and flows on to aggregation unchanged. -/
theorem c6_no_validation :
    ∀ t : Table, (parse_uploaded_data t).rows = t.rows :=
  fun _ => rfl

/-- One canonical session row as the ACWR monitor consumes it: the player
name, the session date, and the Player Load (AU) value that the groupby
sums. The date type stays abstract; the pandas isocalendar().week step is
the isoweek function passed alongside. -/
structure SessionRecord (D : Type) where
  player : String
  date : D
  load : ℚ

/-- Add one observation to the running (player, week) groups: the first
group with the same key absorbs the value, a new key is appended. -/
def addToGroups : List (String × ℕ × ℚ) → String × ℕ → ℚ → List (String × ℕ × ℚ)
  | [], k, v => [(k.1, k.2, v)]
  | (p, w, s) :: rest, k, v =>
    if p = k.1 ∧ w = k.2 then (p, w, s + v) :: rest
    else (p, w, s) :: addToGroups rest k v

/-- The df.groupby(["Player", "Week"]) sum of Player Load (AU): every
record folded into its (player, ISO week) group. -/
def groupSum {D : Type} (isoweek : D → ℕ) (records : List (SessionRecord D)) :
    List (String × ℕ × ℚ) :=
  records.foldl (fun gs r => addToGroups gs (r.player, isoweek r.date) r.load) []

/-- Value of the group keyed (p, w), none when no such group exists. -/
def findGroup (p : String) (w : ℕ) : List (String × ℕ × ℚ) → Option ℚ
  | [] => none
  | (p2, w2, s) :: rest => if p = p2 ∧ w = w2 then some s else findGroup p w rest

/-- The (player, week) keys of a group list, in order. -/
def groupKeys (gs : List (String × ℕ × ℚ)) : List (String × ℕ) :=
  gs.map (fun g => (g.1, g.2.1))

/-- Arithmetic sum of the loads of the records matching (p, w). -/
def matchingLoadSum {D : Type} (isoweek : D → ℕ) (records : List (SessionRecord D))
    (p : String) (w : ℕ) : ℚ :=
  ((records.filter (fun r => decide (r.player = p ∧ isoweek r.date = w))).map
    (fun r => r.load)).sum

/-- Whether some record matches (p, w). -/
def anyKey {D : Type} (isoweek : D → ℕ) (records : List (SessionRecord D))
    (p : String) (w : ℕ) : Bool :=
  records.any (fun r => decide (r.player = p ∧ isoweek r.date = w))

lemma findGroup_addToGroups (p : String) (w : ℕ) (k : String × ℕ) (v : ℚ) :
    ∀ gs : List (String × ℕ × ℚ),
      findGroup p w (addToGroups gs k v) =
        if p = k.1 ∧ w = k.2 then
          (match findGroup p w gs with
           | some s => some (s + v)
           | none => some v)
        else findGroup p w gs := by
  intro gs
  induction gs with
  | nil =>
    simp only [addToGroups, findGroup]
  | cons g rest ih =>
    rcases g with ⟨p2, w2, s⟩
    by_cases hk : p2 = k.1 ∧ w2 = k.2
    · rw [addToGroups, if_pos hk]
      by_cases hpw : p = p2 ∧ w = w2
      · have hck : p = k.1 ∧ w = k.2 := ⟨hk.1 ▸ hpw.1, hk.2 ▸ hpw.2⟩
        rw [findGroup, if_pos hpw, if_pos hck, findGroup, if_pos hpw]
      · have hck : ¬(p = k.1 ∧ w = k.2) := by
          intro hc
          exact hpw ⟨hk.1 ▸ hc.1, hk.2 ▸ hc.2⟩
        rw [findGroup, if_neg hpw, if_neg hck, findGroup, if_neg hpw]
    · rw [addToGroups, if_neg hk]
      by_cases hpw : p = p2 ∧ w = w2
      · have hck : ¬(p = k.1 ∧ w = k.2) := by
          intro hc
          exact hk ⟨hpw.1 ▸ hc.1, hpw.2 ▸ hc.2⟩
        rw [findGroup, if_pos hpw, if_neg hck, findGroup, if_pos hpw]
      · rw [findGroup, if_neg hpw, ih, findGroup, if_neg hpw]

lemma findGroup_foldl {D : Type} (isoweek : D → ℕ) (p : String) (w : ℕ) :
    ∀ (records : List (SessionRecord D)) (gs : List (String × ℕ × ℚ)),
      findGroup p w (records.foldl
          (fun gs r => addToGroups gs (r.player, isoweek r.date) r.load) gs) =
        (match findGroup p w gs with
         | some s => some (s + matchingLoadSum isoweek records p w)
         | none =>
           if anyKey isoweek records p w then some (matchingLoadSum isoweek records p w)
           else none) := by
  intro records
  induction records with
  | nil =>
    intro gs
    rcases hg : findGroup p w gs with _ | s
    · simp [matchingLoadSum, anyKey, hg]
    · simp [matchingLoadSum, anyKey, hg]
  | cons r rest ih =>
    intro gs
    rw [List.foldl_cons, ih, findGroup_addToGroups]
    by_cases hm : p = r.player ∧ w = isoweek r.date
    · have hm' : r.player = p ∧ isoweek r.date = w := ⟨hm.1.symm, hm.2.symm⟩
      have hsum : matchingLoadSum isoweek (r :: rest) p w =
          r.load + matchingLoadSum isoweek rest p w := by
        simp [matchingLoadSum, List.filter_cons, hm']
      have hany : anyKey isoweek (r :: rest) p w = true := by
        simp [anyKey, List.any_cons, hm']
      rw [if_pos hm, hsum, hany]
      rcases hg : findGroup p w gs with _ | s
      · simp
      · simp [add_assoc]
    · have hm' : ¬(r.player = p ∧ isoweek r.date = w) := by
        intro hc
        exact hm ⟨hc.1.symm, hc.2.symm⟩
      have hsum : matchingLoadSum isoweek (r :: rest) p w =
          matchingLoadSum isoweek rest p w := by
        simp [matchingLoadSum, List.filter_cons, hm']
      have hany : anyKey isoweek (r :: rest) p w = anyKey isoweek rest p w := by
        simp [anyKey, List.any_cons, hm']
      rw [if_neg hm, hsum, hany]

lemma findGroup_groupSum {D : Type} (isoweek : D → ℕ)
    (records : List (SessionRecord D)) (p : String) (w : ℕ) :
    findGroup p w (groupSum isoweek records) =
      (if anyKey isoweek records p w then some (matchingLoadSum isoweek records p w)
       else none) := by
  rw [groupSum, findGroup_foldl]
  rfl

lemma groupKeys_addToGroups (k : String × ℕ) (v : ℚ) :
    ∀ gs : List (String × ℕ × ℚ),
      groupKeys (addToGroups gs k v) =
        if k ∈ groupKeys gs then groupKeys gs else groupKeys gs ++ [k] := by
  intro gs
  induction gs with
  | nil => simp [addToGroups, groupKeys]
  | cons g rest ih =>
    rcases g with ⟨p2, w2, s⟩
    by_cases hk : p2 = k.1 ∧ w2 = k.2
    · have hmem : k ∈ groupKeys ((p2, w2, s) :: rest) := by
        simp [groupKeys]
        left
        rw [Prod.ext_iff]
        exact ⟨hk.1.symm, hk.2.symm⟩
      rw [addToGroups, if_pos hk, if_pos hmem]
      simp [groupKeys]
    · have hne : (p2, w2) ≠ k := by
        intro hc
        rw [Prod.ext_iff] at hc
        exact hk ⟨hc.1, hc.2⟩
      rw [addToGroups, if_neg hk]
      have hcons : groupKeys ((p2, w2, s) :: addToGroups rest k v) =
          (p2, w2) :: groupKeys (addToGroups rest k v) := by
        simp [groupKeys]
      have hcons2 : groupKeys ((p2, w2, s) :: rest) = (p2, w2) :: groupKeys rest := by
        simp [groupKeys]
      rw [hcons, ih, hcons2]
      by_cases hmem : k ∈ groupKeys rest
      · rw [if_pos hmem, if_pos (List.mem_cons_of_mem _ hmem)]
      · have : k ∉ (p2, w2) :: groupKeys rest := by
          intro hc
          rcases List.mem_cons.mp hc with hc | hc
          · exact hne hc.symm
          · exact hmem hc
        rw [if_neg hmem, if_neg this]
        simp

lemma nodup_groupKeys_addToGroups (k : String × ℕ) (v : ℚ)
    (gs : List (String × ℕ × ℚ)) (hnd : (groupKeys gs).Nodup) :
    (groupKeys (addToGroups gs k v)).Nodup := by
  rw [groupKeys_addToGroups]
  by_cases hmem : k ∈ groupKeys gs
  · rw [if_pos hmem]; exact hnd
  · rw [if_neg hmem]
    rw [List.nodup_append]
    exact ⟨hnd, List.nodup_singleton k, by simpa using hmem⟩

lemma nodup_groupKeys_foldl {D : Type} (isoweek : D → ℕ) :
    ∀ (records : List (SessionRecord D)) (gs : List (String × ℕ × ℚ)),
      (groupKeys gs).Nodup →
      (groupKeys (records.foldl
        (fun gs r => addToGroups gs (r.player, isoweek r.date) r.load) gs)).Nodup := by
  intro records
  induction records with
  | nil => intro gs h; exact h
  | cons r rest ih =>
    intro gs h
    rw [List.foldl_cons]
    exact ih _ (nodup_groupKeys_addToGroups _ _ _ h)

/-- Ascending order on the week component of a (week, load) pair. -/
def weekLe (a b : ℕ × ℚ) : Prop := a.1 ≤ b.1

instance : DecidableRel weekLe := fun a b => Nat.decLe a.1 b.1

instance : IsTotal (ℕ × ℚ) weekLe := ⟨fun a b => Nat.le_total a.1 b.1⟩

instance : IsTrans (ℕ × ℚ) weekLe := ⟨fun _ _ _ hab hbc => Nat.le_trans hab hbc⟩

/-- One player's weekly series as the ACWR monitor builds it: filter the
grouped sums to the player, keep (week, load), sort ascending by week
(the source's sort_values("Week")). -/
def player_weeks {D : Type} (isoweek : D → ℕ) (records : List (SessionRecord D))
    (p : String) : List (ℕ × ℚ) :=
  List.insertionSort weekLe
    (((groupSum isoweek records).filter (fun g => decide (g.1 = p))).map (fun g => g.2))

/-- Claim C8: the aggregation in render_acwr_monitor produces exactly one
group per (player, ISO week) key (the key list has no duplicates), the
value of the (p, w) group is exactly the arithmetic sum of the loads of
the records with that key (present iff some record has the key), each
player's weekly series is sorted ascending by week, and two records of
one player in one ISO week collapse to a single group holding their sum. -/
theorem c8_weekly_aggregation :
    (∀ (D : Type) (isoweek : D → ℕ) (records : List (SessionRecord D)),
      (groupKeys (groupSum isoweek records)).Nodup ∧
      (∀ (p : String) (w : ℕ),
        findGroup p w (groupSum isoweek records) =
          (if anyKey isoweek records p w
           then some (matchingLoadSum isoweek records p w) else none)) ∧
      (∀ p : String, List.Sorted weekLe (player_weeks isoweek records p))) ∧
    groupSum (fun d : ℕ => d) [⟨"A", 3, 100⟩, ⟨"A", 3, 150⟩] = [("A", 3, (250 : ℚ))] := by
  constructor
  · intro D isoweek records
    refine ⟨?_, ?_, ?_⟩
    · exact nodup_groupKeys_foldl isoweek records [] (by simp [groupKeys])
    · intro p w
      exact findGroup_groupSum isoweek records p w
    · intro p
      exact List.sorted_insertionSort weekLe _
  · show addToGroups (addToGroups [] ("A", 3) 100) ("A", 3) 150 = [("A", 3, (250 : ℚ))]
    simp only [addToGroups]
    norm_num

/-- The position cycle of generate_sample_data. -/
def positions : List String :=
  ["GK", "DEF", "DEF", "DEF", "MID", "MID", "MID", "MID", "FWD", "FWD"]

/-- Position of the i-th player: positions[i % len(positions)]; the
fallback of getD is unreachable since i % 10 < 10. -/
def posOf (i : ℕ) : String := positions.getD (i % positions.length) ""

/-- State of the global numpy random generator: the seed last applied and
the number of draws made since. -/
structure Rng where
  seedVal : ℕ
  idx : ℕ
deriving DecidableEq, Repr

/-- np.random.seed: reset the global stream. -/
def npSeed (s : ℕ) : Rng := ⟨s, 0⟩

/-- Modelled from the library: the numpy MT19937 stream is external code,
abstracted as a fixed deterministic rational in [0, 1) per (seed, draw
index); the claims settled here depend only on the stream being a
function of seed and index, not on its concrete values. -/
def npStream (seed i : ℕ) : ℚ := ((seed * 1103515245 + i * 12345) % 1000 : ℕ) / 1000

/-- np.random.uniform(lo, hi): one draw from the global stream. -/
def npUniform (lo hi : ℚ) (g : Rng) : ℚ × Rng :=
  (lo + (hi - lo) * npStream g.seedVal g.idx, ⟨g.seedVal, g.idx + 1⟩)

/-- One generated demo row. The Date cell is modelled as the calendar day
number: the source formats session_date with strftime("%Y-%m-%d"), which
renders exactly the day. -/
structure SampleRecord where
  date : ℤ
  player : String
  position : String
  session_type : String
  duration_min : ℤ
  total_distance_m : ℤ
  hsr_distance_m : ℤ
  sprint_distance_m : ℤ
  accelerations : ℤ
  decelerations : ℤ
  player_load_au : ℚ
  max_speed_kmh : ℚ
deriving DecidableEq, Repr

/-- Python round(x, 1), to one decimal place (half rounded up here; the
claims below never depend on the tie behavior). -/
def round1 (x : ℚ) : ℚ := (round (x * 10) : ℤ) / 10

/-- One inner-loop iteration of generate_sample_data: the record for
(week, session, player i) and the advanced random state. int() is the
floor (all quantities are nonnegative), and the three uniform draws occur
in source order: rand_factor, then Duration, then Max Speed. -/
def makeRecord (n_weeks : ℕ) (start_date : ℤ) (week session i : ℕ) (g : Rng) :
    SampleRecord × Rng :=
  let session_date : ℤ := start_date + 7 * (week : ℤ) + 2 * (session : ℤ)
  let session_type := if session = 3 then "Match" else "Training"
  let pos := posOf i
  let pos_factor : ℚ :=
    if pos = "MID" then 1 else if pos = "DEF" ∨ pos = "FWD" then 0.9 else 0.6
  let match_factor : ℚ := if session_type = "Match" then 1.3 else 1
  let week_factor : ℚ := 0.85 + ((week : ℚ) / (n_weeks : ℚ)) * 0.3
  let u1 := npUniform 0.85 1.15 g
  let combined := pos_factor * match_factor * week_factor * u1.1
  let u2 := npUniform 0.9 1.1 u1.2
  let u3 := npUniform (-3) 3 u2.2
  ({ date := session_date,
     player := "Player " ++ toString (i + 1),
     position := pos,
     session_type := session_type,
     duration_min := ⌊90 * match_factor * u2.1⌋,
     total_distance_m := ⌊6500 * combined⌋,
     hsr_distance_m := ⌊1200 * combined⌋,
     sprint_distance_m := ⌊300 * combined⌋,
     accelerations := ⌊60 * combined⌋,
     decelerations := ⌊55 * combined⌋,
     player_load_au := round1 (650 * combined),
     max_speed_kmh := round1 (28 + u3.1) }, u3.2)

/-- The nested loops of generate_sample_data: weeks, then the 4 sessions
of the week, then the players, appending one record per iteration and
threading the random state. -/
def genLoop (n_players n_weeks : ℕ) (start_date : ℤ) (g : Rng) :
    List SampleRecord × Rng :=
  (List.range n_weeks).foldl (fun acc week =>
    (List.range 4).foldl (fun acc session =>
      (List.range n_players).foldl (fun acc i =>
        let res := makeRecord n_weeks start_date week session i acc.2
        (acc.1 ++ [res.1], res.2)) acc) acc) ([], g)

/-- generate_sample_data from the source (Python defaults n_players = 20,
n_weeks = 8). datetime.now() is ambient input, passed here as the
current day number now; start_date = now - n_weeks weeks. The first
statement of the body is np.random.seed(42), so the incoming global
random state g0 is discarded. -/
def generate_sample_data (n_players n_weeks : ℕ) (now : ℤ) (g0 : Rng) :
    List SampleRecord × Rng :=
  genLoop n_players n_weeks (now - 7 * (n_weeks : ℤ)) (npSeed 42)

/-- Everything of a SampleRecord except the Date cell. -/
def stripDate (r : SampleRecord) :
    String × String × String × ℤ × ℤ × ℤ × ℤ × ℤ × ℤ × ℚ × ℚ :=
  (r.player, r.position, r.session_type, r.duration_min, r.total_distance_m,
   r.hsr_distance_m, r.sprint_distance_m, r.accelerations, r.decelerations,
   r.player_load_au, r.max_speed_kmh)

/-- Claim C7 counterexample: two calls of generate_sample_data with the
same seed (42, fixed inside) and the same parameters n_players = 1,
n_weeks = 1, made with current day 0 and current day 1 respectively,
produce different tables: the Date column is derived from datetime.now(),
so the outputs are not identical. -/
theorem c7_counterexample :
    (generate_sample_data 1 1 0 (npSeed 0)).1 ≠ (generate_sample_data 1 1 1 (npSeed 0)).1 := by
  have hd : ¬ ((generate_sample_data 1 1 0 (npSeed 0)).1.map (fun r => r.date) =
      (generate_sample_data 1 1 1 (npSeed 0)).1.map (fun r => r.date)) := by decide
  exact fun h => hd (congrArg _ h)

/-- Claim C7 amended: with the same parameters and the same observed
current day, two calls of generate_sample_data produce identical tables
regardless of the prior global random state (np.random.seed(42) resets
the stream on entry); across different current days only the Date column
changes, every other field being identical (shown at the counterexample
input). -/
theorem c7_generator_determinism :
    (∀ (n_players n_weeks : ℕ) (now : ℤ) (g1 g2 : Rng),
      generate_sample_data n_players n_weeks now g1 =
        generate_sample_data n_players n_weeks now g2) ∧
    (generate_sample_data 1 1 0 (npSeed 0)).1.map stripDate =
      (generate_sample_data 1 1 1 (npSeed 0)).1.map stripDate := by
  constructor
  · intro n_players n_weeks now g1 g2
    rfl
  · rfl

end SourcedSport
